import Mathlib

set_option autoImplicit false

namespace NtfySmtp

/-- Go strings are modelled as lists of characters (a Go string is a byte
slice; all inputs relevant here are treated at character granularity). -/
abbrev Str : Type := List Char

/-- The character list of a Lean string literal, used to write the Go string
constants of the source. -/
def str (s : String) : Str := s.data

/-- The sentinel errors declared at the top of smtp_server.go, plus `ext`,
which stands for an opaque error value produced by an external collaborator
(the Go standard library parsers, the I/O layer, or the publisher). -/
inductive Err : Type where
  | invalidDomain
  | invalidAddress
  | invalidTopic
  | tooManyRecipients
  | unsupportedContentType
  | ext (tag : String)
  deriving DecidableEq

instance {ε α : Type} [DecidableEq ε] [DecidableEq α] : DecidableEq (Except ε α) :=
  fun a b =>
    match a, b with
    | .ok x, .ok y =>
      if h : x = y then .isTrue (by rw [h]) else .isFalse (fun hc => h (Except.ok.inj hc))
    | .error x, .error y =>
      if h : x = y then .isTrue (by rw [h]) else .isFalse (fun hc => h (Except.error.inj hc))
    | .ok _, .error _ => .isFalse (fun hc => Except.noConfusion hc)
    | .error _, .ok _ => .isFalse (fun hc => Except.noConfusion hc)

/-- strings.HasSuffix. -/
def hasSuffix (s suf : Str) : Bool := decide (suf <:+ s)

/-- strings.TrimSuffix: remove the suffix once if present, else return the
string unchanged. -/
def trimSuffix (s suf : Str) : Str :=
  if hasSuffix s suf then s.take (s.length - suf.length) else s

/-- strings.HasPrefix. -/
def hasPre (s pre : Str) : Bool := decide (pre <+: s)

/-- strings.TrimPrefix: remove the prefix once if present, else return the
string unchanged. -/
def trimPre (s pre : Str) : Str :=
  if hasPre s pre then s.drop pre.length else s

/-- strings.TrimSpace: drop leading and trailing whitespace. -/
def trimSpace (s : Str) : Str :=
  ((s.dropWhile Char.isWhitespace).reverse.dropWhile Char.isWhitespace).reverse

/-- The fields of server.Config read by this file. -/
structure Config : Type where
  SMTPServerDomain : Str
  SMTPServerAddrPrefix : Str
  MessageLimit : Nat
  deriving DecidableEq

/-- smtpBackend: the success/failure delivery counters (the config and the
subscriber are passed separately to the modelled methods). -/
structure smtpBackend : Type where
  success : Nat
  failure : Nat
  deriving DecidableEq

/-- smtpSession: the per-connection session state; `topic` is its only field. -/
structure smtpSession : Type where
  topic : Str
  deriving DecidableEq

/-- The outbound message record handed to the publish collaborator. -/
structure OutboundMessage : Type where
  topic : Str
  title : Str
  message : Str
  deriving DecidableEq

/-- Modelled from the spec: `newDefaultMessage` is declared elsewhere in the
repository; per the spec's Message Assembler, it builds the outbound record
from the topic and the body, with no title. -/
def newDefaultMessage (topic body : Str) : OutboundMessage :=
  { topic := topic, title := [], message := body }

/-- Modelled from the spec: `topicRegex` is declared elsewhere in the
repository; the spec describes it as a fixed topic-name pattern, alphanumeric
plus a small set of punctuation, bounded length. -/
def topicRegexMatch (s : Str) : Bool :=
  decide (1 ≤ s.length) && decide (s.length ≤ 64) &&
    s.all (fun c => c.isAlphanum || c == '-' || c == '_')

/-- The view of a parsed mail message (the result of mail.ReadMessage) that
the code consumes: the Content-Type and Subject header values and the raw
body bytes. -/
structure MailMessage : Type where
  contentType : Str
  subject : Str
  rawBody : Str

/-- One MIME part as yielded by multipart.Reader.NextPart: its Content-Type
header value and the outcome of io.ReadAll on the part. -/
structure MimePart : Type where
  contentType : Str
  body : Except Err Str

/-- The sequence of parts a multipart.Reader yields: the parts NextPart
returns in order, then the error it returns once they are exhausted (io.EOF
at a well-formed end of input, or a read/parse failure). -/
structure MultipartStream : Type where
  parts : List MimePart
  endErr : Err

/-- The external collaborators the source calls: the Go standard library
parsers and decoders. Each is an opaque function of the embedding. -/
structure SmtpEnv : Type where
  parseAddressList : Str → Except Err (List Str)
  readMessage : Str → Except Err MailMessage
  parseMediaType : Str → Except Err (Str × List (Str × Str))
  newMultipartReader : Str → Str → MultipartStream
  decodeHeader : Str → Except Err Str

/-- Go map lookup `params[key]` with the zero value for a missing key. -/
def getParam (params : List (Str × Str)) (k : Str) : Str :=
  match params.find? (fun p => p.1 == k) with
  | some p => p.2
  | none => []

/-- The part-scanning loop of readMailBody (lines 175-192): take the next
part, skip it unless its media type is text/plain, return the first
text/plain body; once NextPart errors (the part list is exhausted), return
that error. -/
def nextParts (env : SmtpEnv) : List MimePart → Err → Except Err Str
  | [], endErr => .error endErr
  | part :: rest, endErr =>
    match env.parseMediaType part.contentType with
    | .error e => .error e
    | .ok (partContentType, _) =>
      if partContentType ≠ str "text/plain" then nextParts env rest endErr
      else
        match part.body with
        | .error e => .error e
        | .ok body => .ok body

/-- readMailBody (lines 161-195). Reading the whole body of a text/plain
message comes from the in-memory buffer produced by mail.ReadMessage and is
modelled as the stored rawBody. -/
def readMailBody (env : SmtpEnv) (msg : MailMessage) : Except Err Str :=
  match env.parseMediaType msg.contentType with
  | .error e => .error e
  | .ok (contentType, params) =>
    if contentType = str "text/plain" then
      .ok msg.rawBody
    else if hasPre contentType (str "multipart/") then
      let mr := env.newMultipartReader msg.rawBody (getParam params (str "boundary"))
      nextParts env mr.parts mr.endErr
    else
      .error .unsupportedContentType

/-- Lines 114-116 of Data: hard-truncate the (already trimmed) body to the
configured message limit. -/
def truncateBody (conf : Config) (body : Str) : Str :=
  if body.length > conf.MessageLimit then body.take conf.MessageLimit else body

/-- Lines 118-126 of Data: the title value. The trimmed Subject header is
decoded when non-empty (a decode failure aborts); when it is empty the title
keeps its zero value. -/
def decodeSubject (dec : Str → Except Err Str) (subjectRaw : Str) : Except Err Str :=
  if trimSpace subjectRaw = [] then .ok [] else dec (trimSpace subjectRaw)

/-- Lines 127-130 of Data: if the title is non-empty and the message is
empty, flip them. -/
def swapTitle (m : OutboundMessage) : OutboundMessage :=
  if m.title ≠ [] ∧ m.message = [] then { m with message := m.title, title := [] } else m

/-- Lines 113-130 of Data: trim and truncate the extracted body, build the
default message, set the decoded title, and apply the swap rule. -/
def assembleMessage (conf : Config) (topic : Str) (dec : Str → Except Err Str)
    (subjectRaw body0 : Str) : Except Err OutboundMessage :=
  match decodeSubject dec subjectRaw with
  | .error e => .error e
  | .ok ttl =>
    .ok (swapTitle
      { newDefaultMessage topic (truncateBody conf (trimSpace body0)) with title := ttl })

/-- Lines 99-130 of Data: the pure pipeline up to the publish call. The
reader argument is the outcome of io.ReadAll on the data stream. -/
def dataAssemble (env : SmtpEnv) (conf : Config) (topic : Str)
    (r : Except Err Str) : Except Err OutboundMessage :=
  match r with
  | .error e => .error e
  | .ok b =>
    match env.readMessage b with
    | .error e => .error e
    | .ok msg =>
      match readMailBody env msg with
      | .error e => .error e
      | .ok body => assembleMessage conf topic env.decodeHeader msg.subject body

/-- withFailCount (lines 151-159): run the inner result through the failure
counter; a non-nil error increments failure. -/
def withFailCount {α : Type} (b : smtpBackend) (res : Except Err α) :
    Except Err α × smtpBackend :=
  match res with
  | .error e => (.error e, { b with failure := b.failure + 1 })
  | .ok a => (.ok a, b)

/-- The body of the closure in Data (lines 99-138): assemble, publish, and on
success increment the success counter. The published message is returned so
that theorems can speak about it; the Go method returns only the error. -/
def dataFn (env : SmtpEnv) (conf : Config) (sub : OutboundMessage → Option Err)
    (topic : Str) (r : Except Err Str) (b : smtpBackend) :
    Except Err OutboundMessage × smtpBackend :=
  match dataAssemble env conf topic r with
  | .error e => (.error e, b)
  | .ok m =>
    match sub m with
    | some e => (.error e, b)
    | none => (.ok m, { b with success := b.success + 1 })

/-- Data (lines 98-139): the closure under withFailCount. The session is
returned unchanged, mirroring that the method never assigns to s.topic. -/
def Data (env : SmtpEnv) (conf : Config) (sub : OutboundMessage → Option Err)
    (b : smtpBackend) (s : smtpSession) (r : Except Err Str) :
    Except Err OutboundMessage × smtpBackend × smtpSession :=
  let p := dataFn env conf sub s.topic r b
  let q := withFailCount p.2 p.1
  (q.1, q.2, s)

/-- The body of the closure in Rcpt (lines 69-95): parse the recipient,
require exactly one address, require and strip the domain suffix, require
and strip the configured address prefix when one is set, validate the
remainder as a topic, and store it in the session. The Go code returns early
on each negated test; the conditionals here carry the positive test first. -/
def rcptFn (env : SmtpEnv) (conf : Config) (toAddr : Str) (s : smtpSession) :
    Except Err smtpSession :=
  match env.parseAddressList toAddr with
  | .error e => .error e
  | .ok [addr] =>
    let suf := str "@" ++ conf.SMTPServerDomain
    if hasSuffix addr suf then
      let to1 := trimSuffix addr suf
      if conf.SMTPServerAddrPrefix ≠ [] then
        if hasPre to1 conf.SMTPServerAddrPrefix then
          let to2 := trimPre to1 conf.SMTPServerAddrPrefix
          if topicRegexMatch to2 then .ok { s with topic := to2 }
          else .error .invalidTopic
        else .error .invalidAddress
      else
        if topicRegexMatch to1 then .ok { s with topic := to1 }
        else .error .invalidTopic
    else .error .invalidDomain
  | .ok _ => .error .tooManyRecipients

/-- Rcpt (lines 68-96): the closure under withFailCount. The stored topic is
the session mutation; on failure the session is unchanged. -/
def Rcpt (env : SmtpEnv) (conf : Config) (b : smtpBackend) (s : smtpSession)
    (toAddr : Str) : Except Err Unit × smtpBackend × smtpSession :=
  match withFailCount b (rcptFn env conf toAddr s) with
  | (.error e, b1) => (.error e, b1, s)
  | (.ok s1, b1) => (.ok (), b1, s1)

/-- Reset (lines 141-145): clear the topic unconditionally. -/
def Reset (s : smtpSession) : smtpSession :=
  { s with topic := [] }

/-- A concrete collaborator environment used by the concrete-input theorems:
the address parser echoes its non-empty input as a single address and fails on
the empty input, parsed messages are plain text with no subject, and header
decoding is the identity. -/
def wEnv : SmtpEnv where
  parseAddressList := fun x => if x = [] then .error (.ext "parse") else .ok [x]
  readMessage := fun b => .ok { contentType := str "text/plain", subject := [], rawBody := b }
  parseMediaType := fun s => .ok (s, [])
  newMultipartReader := fun _ _ => { parts := [], endErr := .ext "EOF" }
  decodeHeader := fun x => .ok x

/-- A concrete configuration with a domain, an address prefix and a large
message limit. -/
def wConf : Config where
  SMTPServerDomain := str "ntfy.sh"
  SMTPServerAddrPrefix := str "ntfy-"
  MessageLimit := 4096

/-- A publisher that always accepts. -/
def wSub : OutboundMessage → Option Err := fun _ => none

/-- Like wEnv, but every parsed message carries the subject HelloWorld. -/
def wEnvSubject : SmtpEnv :=
  { wEnv with
    readMessage := fun b =>
      .ok { contentType := str "text/plain", subject := str "HelloWorld", rawBody := b } }

/-- A concrete configuration with no address prefix and message limit 5. -/
def wConf5 : Config where
  SMTPServerDomain := str "ntfy.sh"
  SMTPServerAddrPrefix := []
  MessageLimit := 5

/-- Like wEnv, but messages parse as multipart with parts text/html, then two
text/plain parts with bodies A and B. -/
def wEnvMultipart : SmtpEnv :=
  { wEnv with
    readMessage := fun b =>
      .ok { contentType := str "multipart/alternative", subject := [], rawBody := b },
    newMultipartReader := fun _ _ =>
      { parts :=
          [{ contentType := str "text/html", body := .ok (str "H") },
           { contentType := str "text/plain", body := .ok (str "A") },
           { contentType := str "text/plain", body := .ok (str "B") }],
        endErr := .ext "EOF" } }

/-- Like wEnv, but messages parse as multipart whose parts are text/html and
image/png only; the reader ends with an EOF error. -/
def wEnvNoPlain : SmtpEnv :=
  { wEnv with
    readMessage := fun b =>
      .ok { contentType := str "multipart/mixed", subject := [], rawBody := b },
    newMultipartReader := fun _ _ =>
      { parts :=
          [{ contentType := str "text/html", body := .ok (str "H") },
           { contentType := str "image/png", body := .ok (str "P") }],
        endErr := .ext "EOF" } }

theorem hasSuffix_append (l suf : Str) : hasSuffix (l ++ suf) suf = true := by
  simp [hasSuffix, List.suffix_append]

theorem trimSuffix_append (l suf : Str) : trimSuffix (l ++ suf) suf = l := by
  simp [trimSuffix, hasSuffix, List.suffix_append, List.length_append]

theorem hasPre_append (pre t : Str) : hasPre (pre ++ t) pre = true := by
  simp [hasPre, List.prefix_append]

theorem trimPre_append (pre t : Str) : trimPre (pre ++ t) pre = t := by
  simp [trimPre, hasPre, List.prefix_append, List.drop_left]

theorem hasSuffix_exists {s suf : Str} (h : hasSuffix s suf = true) :
    ∃ l, s = l ++ suf := by
  simp [hasSuffix] at h
  obtain ⟨l, hl⟩ := h
  exact ⟨l, hl.symm⟩

theorem hasPre_exists {s pre : Str} (h : hasPre s pre = true) :
    ∃ t, s = pre ++ t := by
  simp [hasPre] at h
  obtain ⟨t, ht⟩ := h
  exact ⟨t, ht.symm⟩

theorem Rcpt_of_rcptFn_error (env : SmtpEnv) (conf : Config) (b : smtpBackend)
    (s : smtpSession) (toAddr : Str) (e : Err)
    (hr : rcptFn env conf toAddr s = .error e) :
    Rcpt env conf b s toAddr = (.error e, { b with failure := b.failure + 1 }, s) := by
  simp [Rcpt, withFailCount, hr]

theorem Rcpt_of_rcptFn_ok (env : SmtpEnv) (conf : Config) (b : smtpBackend)
    (s : smtpSession) (toAddr : Str) (s1 : smtpSession)
    (hr : rcptFn env conf toAddr s = .ok s1) :
    Rcpt env conf b s toAddr = (.ok (), b, s1) := by
  simp [Rcpt, withFailCount, hr]

theorem swapTitle_topic (m : OutboundMessage) : (swapTitle m).topic = m.topic := by
  unfold swapTitle
  split <;> rfl

theorem assembleMessage_topic (conf : Config) (topic : Str)
    (dec : Str → Except Err Str) (subjectRaw body0 : Str) (m : OutboundMessage)
    (h : assembleMessage conf topic dec subjectRaw body0 = .ok m) : m.topic = topic := by
  unfold assembleMessage at h
  cases hd : decodeSubject dec subjectRaw with
  | error e => rw [hd] at h; cases h
  | ok ttl =>
    rw [hd] at h
    have hm := Except.ok.inj h
    rw [← hm, swapTitle_topic]
    rfl

theorem dataAssemble_topic (env : SmtpEnv) (conf : Config) (topic : Str)
    (r : Except Err Str) (m : OutboundMessage)
    (h : dataAssemble env conf topic r = .ok m) : m.topic = topic := by
  cases hr : r with
  | error e => simp [dataAssemble, hr] at h
  | ok b =>
    cases hmsg : env.readMessage b with
    | error e => simp [dataAssemble, hr, hmsg] at h
    | ok msg =>
      cases hbody : readMailBody env msg with
      | error e => simp [dataAssemble, hr, hmsg, hbody] at h
      | ok body =>
        simp only [dataAssemble, hr, hmsg, hbody] at h
        exact assembleMessage_topic _ _ _ _ _ _ h

theorem Data_cases (env : SmtpEnv) (conf : Config) (sub : OutboundMessage → Option Err)
    (b : smtpBackend) (s : smtpSession) (r : Except Err Str) :
    (∃ e, dataAssemble env conf s.topic r = .error e ∧
      Data env conf sub b s r = (.error e, { b with failure := b.failure + 1 }, s)) ∨
    (∃ m e, dataAssemble env conf s.topic r = .ok m ∧ sub m = some e ∧
      Data env conf sub b s r = (.error e, { b with failure := b.failure + 1 }, s)) ∨
    (∃ m, dataAssemble env conf s.topic r = .ok m ∧ sub m = none ∧
      Data env conf sub b s r = (.ok m, { b with success := b.success + 1 }, s)) := by
  cases hda : dataAssemble env conf s.topic r with
  | error e =>
    exact Or.inl ⟨e, rfl, by simp [Data, dataFn, withFailCount, hda]⟩
  | ok m =>
    cases hsub : sub m with
    | some e =>
      exact Or.inr (Or.inl ⟨m, e, rfl, hsub, by simp [Data, dataFn, withFailCount, hda, hsub]⟩)
    | none =>
      exact Or.inr (Or.inr ⟨m, rfl, hsub, by simp [Data, dataFn, withFailCount, hda, hsub]⟩)

theorem Data_ok_topic (env : SmtpEnv) (conf : Config) (sub : OutboundMessage → Option Err)
    (b : smtpBackend) (s : smtpSession) (r : Except Err Str) (m : OutboundMessage)
    (b2 : smtpBackend) (s2 : smtpSession)
    (h : Data env conf sub b s r = (.ok m, b2, s2)) : m.topic = s.topic := by
  rcases Data_cases env conf sub b s r with ⟨e, hda, hD⟩ | ⟨m0, e, hda, hsub, hD⟩ |
    ⟨m0, hda, hsub, hD⟩
  · rw [h] at hD; simp at hD
  · rw [h] at hD; simp at hD
  · rw [h] at hD
    simp only [Prod.mk.injEq, Except.ok.injEq] at hD
    obtain ⟨hm, -, -⟩ := hD
    rw [hm]
    exact dataAssemble_topic _ _ _ _ _ hda

theorem nextParts_skip (env : SmtpEnv) (pre rest : List MimePart) (endErr : Err)
    (h : ∀ q ∈ pre, ∃ qct qp, env.parseMediaType q.contentType = .ok (qct, qp) ∧
      qct ≠ str "text/plain") :
    nextParts env (pre ++ rest) endErr = nextParts env rest endErr := by
  induction pre with
  | nil => rfl
  | cons q qs ih =>
    obtain ⟨qct, qp, hq, hne⟩ := h q (List.mem_cons_self _ _)
    rw [List.cons_append]
    simp only [nextParts, hq, hne, ne_eq, not_false_eq_true, if_true, ite_true]
    exact ih (fun x hx => h x (List.mem_cons_of_mem _ hx))

theorem nextParts_all_skip (env : SmtpEnv) (parts : List MimePart) (endErr : Err)
    (h : ∀ q ∈ parts, ∃ qct qp, env.parseMediaType q.contentType = .ok (qct, qp) ∧
      qct ≠ str "text/plain") :
    nextParts env parts endErr = .error endErr := by
  have e1 : parts = parts ++ [] := by simp
  rw [e1, nextParts_skip env parts [] endErr (by simpa using h)]
  rfl

theorem multipart_not_plain {ct : Str} (hmp : hasPre ct (str "multipart/") = true) :
    ct ≠ str "text/plain" := by
  intro hc
  rw [hc] at hmp
  exact absurd hmp (by decide)

/-- C1: for every recipient string that the address parser resolves to exactly
one address of the form prefix ++ topic ++ "@" ++ domain with the topic
matching the topic pattern, Rcpt succeeds and stores exactly that topic in the
session; for a recipient of any other shape, Rcpt returns one of the five
resolver error kinds (the address-parse error itself, too-many-recipients,
invalid domain, invalid address, invalid topic), increments the failure
counter, and leaves the session, hence its stored topic, unchanged. -/
theorem Rcpt_resolver_correct (env : SmtpEnv) (conf : Config) (b : smtpBackend)
    (s : smtpSession) (toAddr : Str) :
    (∀ t : Str,
      env.parseAddressList toAddr =
        .ok [conf.SMTPServerAddrPrefix ++ t ++ str "@" ++ conf.SMTPServerDomain] →
      topicRegexMatch t = true →
      Rcpt env conf b s toAddr = (.ok (), b, { s with topic := t })) ∧
    ((¬ ∃ t : Str,
        env.parseAddressList toAddr =
          .ok [conf.SMTPServerAddrPrefix ++ t ++ str "@" ++ conf.SMTPServerDomain] ∧
        topicRegexMatch t = true) →
      ∃ e : Err,
        Rcpt env conf b s toAddr = (.error e, { b with failure := b.failure + 1 }, s) ∧
        (env.parseAddressList toAddr = .error e ∨ e = .tooManyRecipients ∨
         e = .invalidDomain ∨ e = .invalidAddress ∨ e = .invalidTopic)) := by
  constructor
  · intro t hp hm
    apply Rcpt_of_rcptFn_ok
    have h1 := hasSuffix_append (conf.SMTPServerAddrPrefix ++ t)
      (str "@" ++ conf.SMTPServerDomain)
    have h2 := trimSuffix_append (conf.SMTPServerAddrPrefix ++ t)
      (str "@" ++ conf.SMTPServerDomain)
    have h3 := hasPre_append conf.SMTPServerAddrPrefix t
    have h4 := trimPre_append conf.SMTPServerAddrPrefix t
    have e1 : conf.SMTPServerAddrPrefix ++ t ++ str "@" ++ conf.SMTPServerDomain
        = (conf.SMTPServerAddrPrefix ++ t) ++ (str "@" ++ conf.SMTPServerDomain) := by
      simp
    by_cases hpre : conf.SMTPServerAddrPrefix = []
    · have e2 : t ++ str "@" ++ conf.SMTPServerDomain
          = t ++ (str "@" ++ conf.SMTPServerDomain) := by
        simp
      have h1b := hasSuffix_append t (str "@" ++ conf.SMTPServerDomain)
      have h2b := trimSuffix_append t (str "@" ++ conf.SMTPServerDomain)
      simp only [rcptFn, hp, hpre, List.nil_append, e2, h1b, h2b, hm, ne_eq,
        not_true_eq_false, if_true, if_false, ite_true, ite_false]
    · simp only [rcptFn, hp, e1, h1, h2, h3, h4, hm, hpre, ne_eq,
        not_false_eq_true, if_true, if_false, ite_true, ite_false]
  · intro hno
    cases hp : env.parseAddressList toAddr with
    | error e =>
      refine ⟨e, Rcpt_of_rcptFn_error _ _ _ _ _ _ (by simp [rcptFn, hp]), Or.inl rfl⟩
    | ok l =>
      match l with
      | [] =>
        refine ⟨.tooManyRecipients,
          Rcpt_of_rcptFn_error _ _ _ _ _ _ (by simp [rcptFn, hp]), by tauto⟩
      | a1 :: a2 :: rest =>
        refine ⟨.tooManyRecipients,
          Rcpt_of_rcptFn_error _ _ _ _ _ _ (by simp [rcptFn, hp]), by tauto⟩
      | [a] =>
        cases hs : hasSuffix a (str "@" ++ conf.SMTPServerDomain) with
        | false =>
          refine ⟨.invalidDomain,
            Rcpt_of_rcptFn_error _ _ _ _ _ _ (by simp [rcptFn, hp, hs]), by tauto⟩
        | true =>
          obtain ⟨l0, rfl⟩ := hasSuffix_exists hs
          have h2 := trimSuffix_append l0 (str "@" ++ conf.SMTPServerDomain)
          have h1 := hasSuffix_append l0 (str "@" ++ conf.SMTPServerDomain)
          by_cases hpre : conf.SMTPServerAddrPrefix = []
          · cases hm : topicRegexMatch l0 with
            | true =>
              exact absurd ⟨l0, by rw [hp]; simp [hpre], hm⟩ hno
            | false =>
              refine ⟨.invalidTopic, Rcpt_of_rcptFn_error _ _ _ _ _ _ ?_, by tauto⟩
              simp only [rcptFn, hp, h1, h2, hpre, hm, ne_eq, not_true_eq_false,
                if_true, if_false, ite_true, ite_false]
              try rfl
          · cases hpp : hasPre l0 conf.SMTPServerAddrPrefix with
            | false =>
              refine ⟨.invalidAddress, Rcpt_of_rcptFn_error _ _ _ _ _ _ ?_, by tauto⟩
              simp only [rcptFn, hp, h1, h2, hpp, hpre, ne_eq, not_false_eq_true,
                if_true, if_false, ite_true, ite_false]
              try rfl
            | true =>
              obtain ⟨t0, rfl⟩ := hasPre_exists hpp
              have h3 := hasPre_append conf.SMTPServerAddrPrefix t0
              have h4 := trimPre_append conf.SMTPServerAddrPrefix t0
              cases hm : topicRegexMatch t0 with
              | true =>
                exact absurd ⟨t0, by rw [hp]; simp, hm⟩ hno
              | false =>
                refine ⟨.invalidTopic, Rcpt_of_rcptFn_error _ _ _ _ _ _ ?_, by tauto⟩
                simp only [rcptFn, hp, h1, h2, h3, h4, hm, hpre, ne_eq,
                  not_false_eq_true, if_true, if_false, ite_true, ite_false]
                try rfl

/-- C1 witness: at the concrete environment wEnv, the recipient
ntfy-mytopic@ntfy.sh stores topic mytopic, and the empty recipient (which the
parser rejects) yields a resolver error with the failure counter bumped. -/
theorem Rcpt_resolver_correct_witness :
    Rcpt wEnv wConf ⟨0, 0⟩ ⟨[]⟩ (str "ntfy-mytopic@ntfy.sh")
      = (.ok (), ⟨0, 0⟩, ⟨str "mytopic"⟩) ∧
    ∃ e : Err,
      Rcpt wEnv wConf ⟨0, 0⟩ ⟨[]⟩ [] = (.error e, ⟨0, 1⟩, ⟨[]⟩) ∧
      (wEnv.parseAddressList [] = .error e ∨ e = .tooManyRecipients ∨
       e = .invalidDomain ∨ e = .invalidAddress ∨ e = .invalidTopic) := by
  constructor
  · exact (Rcpt_resolver_correct wEnv wConf ⟨0, 0⟩ ⟨[]⟩ (str "ntfy-mytopic@ntfy.sh")).1
      (str "mytopic") (by decide) (by decide)
  · exact (Rcpt_resolver_correct wEnv wConf ⟨0, 0⟩ ⟨[]⟩ []).2
      (fun ⟨t, ht, _⟩ => by simp [wEnv] at ht)

/-- C2 counterexample: a successful Data call at a concrete input returns nil
(ok) yet the session topic afterwards is still mytopic, not the empty string:
the claim that Data clears the topic on success is false of the code. -/
theorem Data_success_leaves_topic_set :
    Data wEnv wConf wSub ⟨0, 0⟩ ⟨str "mytopic"⟩ (.ok (str "hello"))
      = (.ok ⟨str "mytopic", [], str "hello"⟩, ⟨1, 0⟩, ⟨str "mytopic"⟩) ∧
    (Data wEnv wConf wSub ⟨0, 0⟩ ⟨str "mytopic"⟩ (.ok (str "hello"))).2.2.topic ≠ [] := by
  exact ⟨rfl, by decide⟩

/-- C2 (amended): a data call, successful or not, leaves the session record
(and hence its topic field) unchanged; the return to the Idle state is
effected by the engine calling Reset, never by Data itself. -/
theorem Data_session_unchanged (env : SmtpEnv) (conf : Config)
    (sub : OutboundMessage → Option Err) (b : smtpBackend) (s : smtpSession)
    (r : Except Err Str) : (Data env conf sub b s r).2.2 = s := rfl

/-- C3: for every one-level multipart message, extraction returns the body of
the first part whose media type is text/plain, skipping every non-text/plain
part before it and ignoring all parts after it. -/
theorem readMailBody_first_text_plain (env : SmtpEnv) (msg : MailMessage)
    (ct : Str) (params : List (Str × Str)) (pre post : List MimePart)
    (p : MimePart) (A : Str)
    (hct : env.parseMediaType msg.contentType = .ok (ct, params))
    (hmp : hasPre ct (str "multipart/") = true)
    (hparts : (env.newMultipartReader msg.rawBody (getParam params (str "boundary"))).parts
      = pre ++ p :: post)
    (hpre : ∀ q ∈ pre, ∃ qct qp, env.parseMediaType q.contentType = .ok (qct, qp) ∧
      qct ≠ str "text/plain")
    (hp : ∃ pp, env.parseMediaType p.contentType = .ok (str "text/plain", pp))
    (hbody : p.body = .ok A) :
    readMailBody env msg = .ok A := by
  obtain ⟨pp, hp⟩ := hp
  have hne := multipart_not_plain hmp
  simp only [readMailBody, hct, hne, hmp, hparts, ne_eq, not_false_eq_true,
    ite_true, ite_false, if_true, if_false]
  rw [nextParts_skip env pre (p :: post) _ hpre]
  simp [nextParts, hp, hbody]

/-- C3 witness: on a concrete multipart message with parts text/html, then
text/plain A, then text/plain B, extraction returns exactly A. -/
theorem readMailBody_first_text_plain_witness :
    readMailBody wEnvMultipart
      { contentType := str "multipart/alternative", subject := [], rawBody := [] }
      = .ok (str "A") := by
  refine readMailBody_first_text_plain wEnvMultipart
    { contentType := str "multipart/alternative", subject := [], rawBody := [] }
    (str "multipart/alternative") []
    [{ contentType := str "text/html", body := .ok (str "H") }]
    [{ contentType := str "text/plain", body := .ok (str "B") }]
    { contentType := str "text/plain", body := .ok (str "A") }
    (str "A") rfl (by decide) rfl ?_ ⟨[], rfl⟩ rfl
  intro q hq
  simp only [List.mem_singleton] at hq
  subst hq
  exact ⟨str "text/html", [], rfl, by decide⟩

/-- C4: the swap rule. After populating the title from the decoded trimmed
subject and the message from the trimmed truncated body, if the title is
non-empty and the message empty then the title value moves into the message
and the title is cleared; otherwise both are kept as populated. -/
theorem assembleMessage_swap_rule (conf : Config) (topic body0 subjRaw t0 : Str)
    (dec : Str → Except Err Str)
    (h1 : trimSpace subjRaw = [] → t0 = [])
    (h2 : trimSpace subjRaw ≠ [] → dec (trimSpace subjRaw) = .ok t0) :
    assembleMessage conf topic dec subjRaw body0 =
      .ok (if t0 ≠ [] ∧ truncateBody conf (trimSpace body0) = []
        then { topic := topic, title := [], message := t0 }
        else { topic := topic, title := t0, message := truncateBody conf (trimSpace body0) }) := by
  have hd : decodeSubject dec subjRaw = .ok t0 := by
    unfold decodeSubject
    by_cases hs : trimSpace subjRaw = []
    · simp [hs, h1 hs]
    · simp [hs, h2 hs]
  simp only [assembleMessage, hd, newDefaultMessage, swapTitle]

/-- C4 witness: (subject Hello, body empty) gives title empty and message
Hello; (subject empty, body World) gives title empty and message World;
(subject Hi, body World) keeps title Hi and message World. -/
theorem assembleMessage_swap_rule_witness :
    assembleMessage wConf (str "t") (fun x => .ok x) (str "Hello") []
      = .ok ⟨str "t", [], str "Hello"⟩ ∧
    assembleMessage wConf (str "t") (fun x => .ok x) [] (str "World")
      = .ok ⟨str "t", [], str "World"⟩ ∧
    assembleMessage wConf (str "t") (fun x => .ok x) (str "Hi") (str "World")
      = .ok ⟨str "t", str "Hi", str "World"⟩ := by
  refine ⟨?_, ?_, ?_⟩
  · exact (assembleMessage_swap_rule wConf (str "t") [] (str "Hello") (str "Hello")
      (fun x => .ok x) (fun h => absurd h (by decide)) (fun _ => rfl)).trans (by decide)
  · exact (assembleMessage_swap_rule wConf (str "t") (str "World") [] []
      (fun x => .ok x) (fun _ => rfl) (fun h => absurd rfl h)).trans (by decide)
  · exact (assembleMessage_swap_rule wConf (str "t") (str "World") (str "Hi") (str "Hi")
      (fun x => .ok x) (fun h => absurd h (by decide)) (fun _ => rfl)).trans (by decide)

/-- C5: truncation. A trimmed extracted body longer than the message limit is
hard-cut to exactly the limit; a trimmed body at or under the limit passes
through unchanged, and (for an empty subject, where the swap rule cannot
interfere) the assembled message body is exactly this truncated trimmed
body. -/
theorem truncation_exact (conf : Config) (body0 : Str) :
    ((trimSpace body0).length > conf.MessageLimit →
      (truncateBody conf (trimSpace body0)).length = conf.MessageLimit) ∧
    ((trimSpace body0).length ≤ conf.MessageLimit →
      truncateBody conf (trimSpace body0) = trimSpace body0) ∧
    ∀ (topic : Str) (dec : Str → Except Err Str),
      assembleMessage conf topic dec [] body0 =
        .ok { topic := topic, title := [],
              message := truncateBody conf (trimSpace body0) } := by
  refine ⟨?_, ?_, ?_⟩
  · intro h
    simp only [truncateBody, if_pos h]
    rw [List.length_take]
    exact Nat.min_eq_left (Nat.le_of_lt h)
  · intro h
    simp only [truncateBody]
    exact if_neg (Nat.not_lt.mpr h)
  · intro topic dec
    rfl

/-- C5 witness: with limit 5, the body 123456 (after trimming) is cut to
length 5 and assembles to message 12345, while 123 passes through
unchanged. -/
theorem truncation_exact_witness :
    (truncateBody wConf5 (trimSpace (str " 123456 "))).length = wConf5.MessageLimit ∧
    truncateBody wConf5 (trimSpace (str " 123 ")) = trimSpace (str " 123 ") ∧
    assembleMessage wConf5 (str "t") (fun x => .ok x) [] (str " 123456 ")
      = .ok ⟨str "t", [], str "12345"⟩ := by
  refine ⟨(truncation_exact wConf5 (str " 123456 ")).1 (by decide),
    (truncation_exact wConf5 (str " 123 ")).2.1 (by decide),
    ((truncation_exact wConf5 (str " 123456 ")).2.2 (str "t") (fun x => .ok x)).trans
      (by decide)⟩

/-- C6: error/failure-counter coupling. A Rcpt or Data call that returns an
error increments the failure counter by exactly one and leaves the success
counter unchanged; a Data call that returns ok increments the success counter
by exactly one and leaves the failure counter unchanged; a successful Rcpt
changes neither counter. -/
theorem counter_coupling (env : SmtpEnv) (conf : Config)
    (sub : OutboundMessage → Option Err) (b : smtpBackend) (s : smtpSession)
    (toAddr : Str) (r : Except Err Str) :
    (∀ e b2 s2, Rcpt env conf b s toAddr = (.error e, b2, s2) →
      b2.failure = b.failure + 1 ∧ b2.success = b.success) ∧
    (∀ b2 s2, Rcpt env conf b s toAddr = (.ok (), b2, s2) →
      b2.failure = b.failure ∧ b2.success = b.success) ∧
    (∀ e b2 s2, Data env conf sub b s r = (.error e, b2, s2) →
      b2.failure = b.failure + 1 ∧ b2.success = b.success) ∧
    (∀ m b2 s2, Data env conf sub b s r = (.ok m, b2, s2) →
      b2.success = b.success + 1 ∧ b2.failure = b.failure) := by
  refine ⟨?_, ?_, ?_, ?_⟩
  · intro e b2 s2 h
    cases hr : rcptFn env conf toAddr s with
    | error e0 =>
      rw [Rcpt_of_rcptFn_error env conf b s toAddr e0 hr] at h
      simp only [Prod.mk.injEq] at h
      obtain ⟨-, hb, -⟩ := h
      rw [← hb]
      exact ⟨rfl, rfl⟩
    | ok s1 =>
      rw [Rcpt_of_rcptFn_ok env conf b s toAddr s1 hr] at h
      simp at h
  · intro b2 s2 h
    cases hr : rcptFn env conf toAddr s with
    | error e0 =>
      rw [Rcpt_of_rcptFn_error env conf b s toAddr e0 hr] at h
      simp at h
    | ok s1 =>
      rw [Rcpt_of_rcptFn_ok env conf b s toAddr s1 hr] at h
      simp only [Prod.mk.injEq] at h
      obtain ⟨-, hb, -⟩ := h
      rw [← hb]
      exact ⟨rfl, rfl⟩
  · intro e b2 s2 h
    rcases Data_cases env conf sub b s r with ⟨e0, hda, hD⟩ | ⟨m0, e0, hda, hsub, hD⟩ |
      ⟨m0, hda, hsub, hD⟩
    · rw [h] at hD
      simp only [Prod.mk.injEq] at hD
      obtain ⟨-, hb, -⟩ := hD
      rw [hb]
      exact ⟨rfl, rfl⟩
    · rw [h] at hD
      simp only [Prod.mk.injEq] at hD
      obtain ⟨-, hb, -⟩ := hD
      rw [hb]
      exact ⟨rfl, rfl⟩
    · rw [h] at hD
      simp at hD
  · intro m b2 s2 h
    rcases Data_cases env conf sub b s r with ⟨e0, hda, hD⟩ | ⟨m0, e0, hda, hsub, hD⟩ |
      ⟨m0, hda, hsub, hD⟩
    · rw [h] at hD
      simp at hD
    · rw [h] at hD
      simp at hD
    · rw [h] at hD
      simp only [Prod.mk.injEq] at hD
      obtain ⟨-, hb, -⟩ := hD
      rw [hb]
      exact ⟨rfl, rfl⟩

/-- C6 witness: the four counter facts at concrete runs: a failing Rcpt, a
successful Rcpt, a failing Data and a successful Data, each from the zero
counters. -/
theorem counter_coupling_witness :
    ((⟨0, 1⟩ : smtpBackend).failure = (⟨0, 0⟩ : smtpBackend).failure + 1 ∧
     (⟨0, 1⟩ : smtpBackend).success = (⟨0, 0⟩ : smtpBackend).success) ∧
    ((⟨0, 0⟩ : smtpBackend).failure = (⟨0, 0⟩ : smtpBackend).failure ∧
     (⟨0, 0⟩ : smtpBackend).success = (⟨0, 0⟩ : smtpBackend).success) ∧
    ((⟨0, 1⟩ : smtpBackend).failure = (⟨0, 0⟩ : smtpBackend).failure + 1 ∧
     (⟨0, 1⟩ : smtpBackend).success = (⟨0, 0⟩ : smtpBackend).success) ∧
    ((⟨1, 0⟩ : smtpBackend).success = (⟨0, 0⟩ : smtpBackend).success + 1 ∧
     (⟨1, 0⟩ : smtpBackend).failure = (⟨0, 0⟩ : smtpBackend).failure) :=
  ⟨(counter_coupling wEnv wConf wSub ⟨0, 0⟩ ⟨[]⟩ [] (.ok (str "hi"))).1
      (.ext "parse") ⟨0, 1⟩ ⟨[]⟩ rfl,
   (counter_coupling wEnv wConf wSub ⟨0, 0⟩ ⟨[]⟩ (str "ntfy-mytopic@ntfy.sh")
      (.ok (str "hi"))).2.1 ⟨0, 0⟩ ⟨str "mytopic"⟩ rfl,
   (counter_coupling wEnv wConf wSub ⟨0, 0⟩ ⟨[]⟩ [] (.error (.ext "io"))).2.2.1
      (.ext "io") ⟨0, 1⟩ ⟨[]⟩ rfl,
   (counter_coupling wEnv wConf wSub ⟨0, 0⟩ ⟨[]⟩ [] (.ok (str "hi"))).2.2.2
      ⟨[], [], str "hi"⟩ ⟨1, 0⟩ ⟨[]⟩ rfl⟩

/-- C7: for every multipart message none of whose parts is text/plain, body
extraction fails, and the error returned is verbatim the end-of-parts error
the part iterator produced once the parts were exhausted. -/
theorem readMailBody_no_plain_part (env : SmtpEnv) (msg : MailMessage)
    (ct : Str) (params : List (Str × Str))
    (hct : env.parseMediaType msg.contentType = .ok (ct, params))
    (hmp : hasPre ct (str "multipart/") = true)
    (hall : ∀ q ∈ (env.newMultipartReader msg.rawBody
        (getParam params (str "boundary"))).parts,
      ∃ qct qp, env.parseMediaType q.contentType = .ok (qct, qp) ∧
        qct ≠ str "text/plain") :
    readMailBody env msg =
      .error (env.newMultipartReader msg.rawBody (getParam params (str "boundary"))).endErr := by
  have hne := multipart_not_plain hmp
  simp only [readMailBody, hct, hne, hmp, ne_eq, not_false_eq_true,
    ite_true, ite_false, if_true, if_false]
  exact nextParts_all_skip env _ _ hall

/-- C7 witness: on a concrete multipart message with parts text/html and
image/png only, extraction returns the iterator end error EOF itself. -/
theorem readMailBody_no_plain_part_witness :
    readMailBody wEnvNoPlain
      { contentType := str "multipart/mixed", subject := [], rawBody := [] }
      = .error (.ext "EOF") := by
  refine readMailBody_no_plain_part wEnvNoPlain
    { contentType := str "multipart/mixed", subject := [], rawBody := [] }
    (str "multipart/mixed") [] rfl (by decide) ?_
  intro q hq
  simp only [wEnvNoPlain, List.mem_cons, List.mem_singleton] at hq
  rcases hq with hq | hq | hq
  · subst hq; exact ⟨str "text/html", [], rfl, by decide⟩
  · subst hq; exact ⟨str "image/png", [], rfl, by decide⟩
  · cases hq

/-- C8: Reset sets the session topic to the empty string unconditionally, so
a successful data call after Reset with no intervening successful rcpt
publishes a message whose topic is empty, never the previous topic. -/
theorem Reset_clears_topic (s : smtpSession) :
    (Reset s).topic = [] ∧
    ∀ (env : SmtpEnv) (conf : Config) (sub : OutboundMessage → Option Err)
      (b : smtpBackend) (r : Except Err Str) (m : OutboundMessage)
      (b2 : smtpBackend) (s2 : smtpSession),
      Data env conf sub b (Reset s) r = (.ok m, b2, s2) → m.topic = [] := by
  refine ⟨rfl, ?_⟩
  intro env conf sub b r m b2 s2 h
  rw [Data_ok_topic env conf sub b (Reset s) r m b2 s2 h]
  rfl

/-- C8 witness: resetting a session holding topic old clears it, and a
concrete successful Data call on the reset session publishes with the empty
topic. -/
theorem Reset_clears_topic_witness :
    (Reset ⟨str "old"⟩).topic = [] ∧
    (⟨[], [], str "hello"⟩ : OutboundMessage).topic = [] :=
  ⟨(Reset_clears_topic ⟨str "old"⟩).1,
   (Reset_clears_topic ⟨str "old"⟩).2 wEnv wConf wSub ⟨0, 0⟩ (.ok (str "hello"))
     ⟨[], [], str "hello"⟩ ⟨1, 0⟩ ⟨[]⟩ rfl⟩

/-- C9: the message limit is not enforced after the swap: at a concrete input
whose body trims to empty and whose subject HelloWorld is longer than the
limit 5, the published message body is the full subject and its length
exceeds the limit. -/
theorem truncation_bypassed_by_swap :
    Data wEnvSubject wConf5 wSub ⟨0, 0⟩ ⟨str "t"⟩ (.ok (str "  "))
      = (.ok ⟨str "t", [], str "HelloWorld"⟩, ⟨1, 0⟩, ⟨str "t"⟩) ∧
    (str "HelloWorld").length > wConf5.MessageLimit := by
  exact ⟨rfl, by decide⟩

/-- C10: Data performs no check that a topic has been set: a successful data
call on a session whose topic is empty hands the publisher a message whose
topic field is the empty string (it does not fail on account of the missing
topic). -/
theorem Data_no_topic_check (env : SmtpEnv) (conf : Config)
    (sub : OutboundMessage → Option Err) (b : smtpBackend) (s : smtpSession)
    (r : Except Err Str) (m : OutboundMessage) (b2 : smtpBackend) (s2 : smtpSession)
    (hs : s.topic = []) (h : Data env conf sub b s r = (.ok m, b2, s2)) :
    m.topic = [] := by
  rw [Data_ok_topic env conf sub b s r m b2 s2 h, hs]

/-- C10 witness: a concrete successful Data run on a session with the empty
topic publishes with the empty topic. -/
theorem Data_no_topic_check_witness :
    (⟨[], [], str "hello"⟩ : OutboundMessage).topic = [] :=
  Data_no_topic_check wEnv wConf wSub ⟨0, 0⟩ ⟨[]⟩ (.ok (str "hello"))
    ⟨[], [], str "hello"⟩ ⟨1, 0⟩ ⟨[]⟩ rfl rfl

end NtfySmtp
